import Mathlib

/-!
Verification of the BIA forecasting and financial evaluation engine.

This file gives a shallow embedding, over `ℚ`, of the numeric core of the
repository — the finance calculator (`src/bia_core/finance.py`), the feature
builder (`src/bia_core/features.py`), the forecasting models
(`src/bia_core/models.py`) and the evaluation metrics (`src/bia_core/eval.py`)
— and proves the behavioural properties claimed of them.

Modelling conventions:
* Python floats are modelled as rationals (`ℚ`); all the arithmetic in the
  claims is exact, so no rounding behaviour is lost.
* A Python function that can return `float('inf')` as a sentinel is modelled
  with `Option` (`none` = infinity) or `WithTop ℚ` (`⊤` = infinity).
* A Python function that can raise is modelled with `Except String`.
* Calendar dates are modelled as day numbers (`ℕ`); `pandas.date_range` with
  daily frequency is the range of consecutive day numbers.
-/

/-! ## Finance: `src/bia_core/finance.py` (FinanceCalculator) -/

/-- The constructor parameters of `FinanceCalculator.__init__`
(`finance.py` lines 14-35). -/
structure FinanceCalculator where
  yield_rate : ℚ
  capacity_factor : ℚ
  tariff : ℚ
  opex_per_ton : ℚ
  fixed_opex : ℚ
  capex : ℚ
  discount_rate : ℚ
deriving DecidableEq

/-- The per-year record returned by `FinanceCalculator.calculate_annual_metrics`
(`finance.py` lines 57-66). -/
structure AnnualMetrics where
  year : ℕ
  waste_tons : ℚ
  electricity_kwh : ℚ
  revenue : ℚ
  variable_opex : ℚ
  fixed_opex : ℚ
  total_opex : ℚ
  ncf : ℚ
deriving DecidableEq

/-- `FinanceCalculator.calculate_annual_metrics` (`finance.py` lines 37-66).
The source is always called with `year ≥ 1`, where the natural subtraction
`year - 1` agrees with Python's integer exponent. -/
def FinanceCalculator.calculate_annual_metrics (c : FinanceCalculator)
    (daily_waste_tons : ℚ) (year : ℕ) (growth_rate : ℚ) : AnnualMetrics :=
  let annual_waste_tons := daily_waste_tons * 365 * (1 + growth_rate) ^ (year - 1)
  let annual_kwh := annual_waste_tons * c.yield_rate * c.capacity_factor
  let annual_revenue := annual_kwh * c.tariff
  let variable_opex := annual_waste_tons * c.opex_per_ton
  let total_opex := variable_opex + c.fixed_opex
  { year := year
    waste_tons := annual_waste_tons
    electricity_kwh := annual_kwh
    revenue := annual_revenue
    variable_opex := variable_opex
    fixed_opex := c.fixed_opex
    total_opex := total_opex
    ncf := annual_revenue - total_opex }

/-- One element of the list built by `FinanceCalculator.calculate_cashflows`
(`finance.py` lines 79-86). -/
structure CashflowItem where
  year : ℕ
  waste_tons : ℚ
  electricity_kwh : ℚ
  revenue : ℚ
  opex : ℚ
  ncf : ℚ
deriving DecidableEq

/-- `FinanceCalculator.calculate_cashflows` (`finance.py` lines 68-90):
one `CashflowItem` per year `1 .. horizon_years`.  The Python default
`growth_rate=0.02` is passed explicitly as `1/50` at call sites that use it. -/
def FinanceCalculator.calculate_cashflows (c : FinanceCalculator)
    (daily_waste_tons : ℚ) (horizon_years : ℕ) (growth_rate : ℚ) :
    List CashflowItem :=
  (List.range horizon_years).map (fun i =>
    let am := c.calculate_annual_metrics daily_waste_tons (i + 1) growth_rate
    { year := i + 1
      waste_tons := am.waste_tons
      electricity_kwh := am.electricity_kwh
      revenue := am.revenue
      opex := am.total_opex
      ncf := am.ncf })

/-- `FinanceCalculator.calculate_npv` (`finance.py` lines 92-106):
starts from `-capex` and adds each year's `ncf / (1+discount_rate)^year`. -/
def FinanceCalculator.calculate_npv (c : FinanceCalculator)
    (daily_waste_tons : ℚ) (horizon_years : ℕ) (growth_rate : ℚ) : ℚ :=
  (c.calculate_cashflows daily_waste_tons horizon_years growth_rate).foldl
    (fun npv cf => npv + cf.ncf / (1 + c.discount_rate) ^ cf.year) (-c.capex)

/-- The accumulation loop of `FinanceCalculator.calculate_payback`
(`finance.py` lines 114-127).  `none` models the `float('inf')` returned when
the cumulative net cashflow never reaches `capex`. -/
def payback_go (capex : ℚ) : ℚ → List CashflowItem → Option ℚ
  | _, [] => none
  | cum, cf :: rest =>
    let cum2 := cum + cf.ncf
    if capex ≤ cum2 then
      some ((cf.year : ℚ) - 1 + (capex - (cum2 - cf.ncf)) / cf.ncf)
    else
      payback_go capex cum2 rest

/-- `FinanceCalculator.calculate_payback` (`finance.py` lines 108-127). -/
def FinanceCalculator.calculate_payback (c : FinanceCalculator)
    (daily_waste_tons : ℚ) (horizon_years : ℕ) (growth_rate : ℚ) : Option ℚ :=
  payback_go c.capex 0 (c.calculate_cashflows daily_waste_tons horizon_years growth_rate)

/-- The parameter names accepted by `FinanceCalculator._create_modified_calculator`
(`finance.py` lines 205-221), where they are Python dictionary keys. -/
inductive ParamName where
  | yield_rate
  | capacity_factor
  | tariff
  | opex_per_ton
  | fixed_opex
  | capex
  | discount_rate
deriving DecidableEq

/-- `FinanceCalculator._create_modified_calculator` (`finance.py` lines 205-221):
a copy of the calculator with one named parameter replaced. -/
def FinanceCalculator.create_modified_calculator (c : FinanceCalculator)
    (param_name : ParamName) (value : ℚ) : FinanceCalculator :=
  match param_name with
  | .yield_rate => { c with yield_rate := value }
  | .capacity_factor => { c with capacity_factor := value }
  | .tariff => { c with tariff := value }
  | .opex_per_ton => { c with opex_per_ton := value }
  | .fixed_opex => { c with fixed_opex := value }
  | .capex => { c with capex := value }
  | .discount_rate => { c with discount_rate := value }

/-- `FinanceCalculator.sensitivity_analysis` (`finance.py` lines 185-203):
for each named parameter, the NPV recomputed at each listed variation,
with the source's default growth rate `0.02 = 1/50`.  The source also
computes a `base_npv` that it never returns; that dead computation is
omitted here. -/
def FinanceCalculator.sensitivity_analysis (c : FinanceCalculator)
    (daily_waste_tons : ℚ) (horizon_years : ℕ)
    (parameter_variations : List (ParamName × List ℚ)) :
    List (ParamName × List ℚ) :=
  parameter_variations.map (fun pv =>
    (pv.1, pv.2.map (fun v =>
      (c.create_modified_calculator pv.1 v).calculate_npv daily_waste_tons
        horizon_years (1/50))))

/-- Cumulative net cashflow over the first `m` projection years; spec-side
abbreviation used to state the payback claims. -/
def FinanceCalculator.cumNcf (c : FinanceCalculator) (d g : ℚ) (m : ℕ) : ℚ :=
  ∑ i ∈ Finset.range m, (c.calculate_annual_metrics d (i + 1) g).ncf

/-! ## Finance, carbon/byproduct-aware variant

`src/app.py` (lines 662-673, 770-781, 838-877) constructs `FinanceCalculator`
with three further parameters (`carbon_credit_price`, `byproduct_price`,
`enable_byproduct`) and reads `electricity_revenue`, `carbon_revenue` and
`byproduct_revenue` keys from each cashflow record, but the
`src/bia_core/finance.py` in the tree accepts none of those parameters and
emits none of those keys: the extended calculator that `app.py` calls is not
present under `src/`.  The definitions below model that missing code. -/

/-- Modelled from the spec: the parameter set of the carbon/byproduct-aware
`FinanceCalculator` that `app.py` constructs but whose implementation is
missing from `src/bia_core/finance.py` (spec section 3, FinancialParameters:
optional `carbon_credit_price`, and `byproduct_price` active only if
enabled). -/
structure FinanceCalculatorX where
  yield_rate : ℚ
  capacity_factor : ℚ
  tariff : ℚ
  opex_per_ton : ℚ
  fixed_opex : ℚ
  capex : ℚ
  discount_rate : ℚ
  carbon_credit_price : Option ℚ
  byproduct_price : ℚ
  enable_byproduct : Bool
deriving DecidableEq

/-- Modelled from the spec: the per-year cashflow record `CashflowYear`
(spec section 3) produced by the missing carbon/byproduct-aware projection;
`app.py` reads exactly these revenue components from each record. -/
structure CashflowYear where
  year : ℕ
  quantity_tons : ℚ
  energy_kwh : ℚ
  electricity_revenue : ℚ
  carbon_revenue : ℚ
  byproduct_revenue : ℚ
  revenue_total : ℚ
  opex_total : ℚ
  net_cashflow : ℚ
deriving DecidableEq

/-- Modelled from the spec: `projectYear` of the missing carbon/byproduct-aware
calculator (spec section 4.6): `annualQuantity = dailyQuantity × 365 ×
(1+growthRate)^(year−1)`; `energy_kwh = annualQuantity × yield_rate ×
capacity_factor`; `electricity_revenue = energy_kwh × tariff`;
`carbon_revenue = (energy_kwh × 0.9/1000) × carbon_credit_price` (0 if unset);
`byproduct_revenue = annualQuantity × 0.3 × byproduct_price` if byproduct
revenue is enabled, else 0; `revenue_total` is the sum of the three revenue
components; `opex_total = annualQuantity × opex_per_ton + fixed_opex`;
`net_cashflow = revenue_total − opex_total`. -/
def FinanceCalculatorX.projectYear (c : FinanceCalculatorX)
    (dailyQuantity : ℚ) (year : ℕ) (growthRate : ℚ) : CashflowYear :=
  let annualQuantity := dailyQuantity * 365 * (1 + growthRate) ^ (year - 1)
  let energy_kwh := annualQuantity * c.yield_rate * c.capacity_factor
  let electricity_revenue := energy_kwh * c.tariff
  let carbon_revenue := energy_kwh * (9/10) / 1000 * (c.carbon_credit_price.getD 0)
  let byproduct_revenue :=
    if c.enable_byproduct then annualQuantity * (3/10) * c.byproduct_price else 0
  let revenue_total := electricity_revenue + carbon_revenue + byproduct_revenue
  let opex_total := annualQuantity * c.opex_per_ton + c.fixed_opex
  { year := year
    quantity_tons := annualQuantity
    energy_kwh := energy_kwh
    electricity_revenue := electricity_revenue
    carbon_revenue := carbon_revenue
    byproduct_revenue := byproduct_revenue
    revenue_total := revenue_total
    opex_total := opex_total
    net_cashflow := revenue_total - opex_total }

/-- Modelled from the spec: `projectCashflows` of the missing
carbon/byproduct-aware calculator (spec section 4.6), the ordered list of
`CashflowYear` for years `1 .. horizonYears`. -/
def FinanceCalculatorX.projectCashflows (c : FinanceCalculatorX)
    (dailyQuantity : ℚ) (horizonYears : ℕ) (growthRate : ℚ) : List CashflowYear :=
  (List.range horizonYears).map (fun i => c.projectYear dailyQuantity (i + 1) growthRate)

/-! ## Features: `src/bia_core/features.py` (create_forecast_features)

An observation is a `(date, waste_tons)` pair; `create_forecast_features`
aggregates same-day observations, sorts by date, and (when more than one
distinct date is present) reindexes to one row per calendar day between the
first and last observed date, filling unobserved days with quantity 0.
The derived per-row columns (day_of_week, lags, rolling means, ...) are pure
functions of this date/quantity core and do not change the row set, so the
embedding keeps one `(date, quantity)` pair per row. -/

/-- The dates of a list of observations (`df['date']`). -/
def obsDates (obs : List (ℕ × ℚ)) : List ℕ :=
  obs.map Prod.fst

/-- `daily_data['date'].min()` for a non-empty observation list (0 for the
empty list, which the source never reaches past its empty guard). -/
def minDate : List (ℕ × ℚ) → ℕ
  | [] => 0
  | p :: ps => (obsDates (p :: ps)).foldl min p.1

/-- `daily_data['date'].max()` for a non-empty observation list. -/
def maxDate : List (ℕ × ℚ) → ℕ
  | [] => 0
  | p :: ps => (obsDates (p :: ps)).foldl max p.1

/-- `df.groupby('date')['waste_tons'].sum()` at one date: the sum of the
quantities logged on that date (0 when the date is unobserved). -/
def sumOn (obs : List (ℕ × ℚ)) (d : ℕ) : ℚ :=
  ((obs.filter (fun p => p.1 == d)).map Prod.snd).sum

/-- The aggregated `daily_data` frame of `create_forecast_features`
(`features.py` line 25): one row per distinct observed date, dates ascending,
with same-day quantities summed. -/
def aggregateDaily (obs : List (ℕ × ℚ)) : List (ℕ × ℚ) :=
  (((List.range (maxDate obs - minDate obs + 1)).map (fun i => minDate obs + i)).filter
    (fun d => decide (d ∈ obsDates obs))).map (fun d => (d, sumOn obs d))

/-- `create_forecast_features` (`features.py` lines 10-76), restricted to its
date/quantity core: on an empty input it returns the empty table (the source's
`if df_logs.empty: return pd.DataFrame()`); otherwise it aggregates per
distinct date and, when more than one distinct date exists, merges the
aggregate onto the full daily `date_range` and zero-fills missing days
(`features.py` lines 27-37). -/
def create_forecast_features (obs : List (ℕ × ℚ)) : List (ℕ × ℚ) :=
  if obs.isEmpty then []
  else
    let daily := aggregateDaily obs
    if 1 < daily.length then
      (List.range (maxDate obs - minDate obs + 1)).map
        (fun i => (minDate obs + i, sumOn obs (minDate obs + i)))
    else daily

/-! ## Models: `src/bia_core/models.py` -/

/-- The fitted state of `DeterministicModel` (`models.py` lines 45-52).
Python field defaults (`default_growth_rate=0.002`, `base_value=0`,
`is_fitted=False`) are supplied at each use site. -/
structure DeterministicModel where
  default_growth_rate : ℚ
  base_value : ℚ
  growth_rate : ℚ
  is_fitted : Bool
deriving DecidableEq

/-- `DeterministicModel.predict` (`models.py` lines 93-104): if unfitted,
a constant-1.0 forecast; otherwise for `t = 1 .. forecast_days` the value
`max 0 (base_value * (1 + growth_rate) ^ t)`. -/
def DeterministicModel.predict (m : DeterministicModel) (forecast_days : ℕ) :
    List ℚ :=
  if m.is_fitted = false then List.replicate forecast_days 1
  else
    (List.range forecast_days).map
      (fun t => max 0 (m.base_value * (1 + m.growth_rate) ^ (t + 1)))

/-- The state of `SARIMAModel` relevant to `predict` (`models.py` lines
106-115).  `base_forecast` is the deterministic fallback installed by `fit`
when statsmodels is unavailable, data is short, variance is zero, or fitting
raises.  `fitted_model` models the external statsmodels results object as an
opaque forecast oracle; its answer `none` models `forecast` raising (caught
at `models.py` line 201). -/
structure SARIMAModel where
  is_fitted : Bool
  base_forecast : Option DeterministicModel
  fitted_model : Option (ℕ → Option (List ℚ))

/-- `SARIMAModel.predict` (`models.py` lines 176-204): unfitted → constant 1.0;
fallback installed → delegate to it; no fitted model → constant 1.0;
otherwise the library forecast clamped to be non-negative per point, with a
constant-1.0 forecast on a prediction failure. -/
def SARIMAModel.predict (s : SARIMAModel) (forecast_days : ℕ) : List ℚ :=
  if s.is_fitted = false then List.replicate forecast_days 1
  else
    match s.base_forecast with
    | some bf => bf.predict forecast_days
    | none =>
      match s.fitted_model with
      | none => List.replicate forecast_days 1
      | some f =>
        match f forecast_days with
        | none => List.replicate forecast_days 1
        | some forecast => forecast.map (fun v => max 0 v)

/-! ## Evaluation: `src/bia_core/eval.py` -/

/-- `calculate_mae` (`eval.py` lines 39-50): mean absolute error, raising on a
length mismatch (`Except.error`).  The source's `np.mean` over an empty pair
of arrays yields NaN; `ℚ` division by the zero length yields 0 instead, a
divergence only reachable for empty inputs, which no claim touches. -/
def calculate_mae (actual predicted : List ℚ) : Except String ℚ :=
  if actual.length ≠ predicted.length then
    .error "Actual and predicted arrays must have same length"
  else
    .ok ((((actual.zip predicted).map (fun p => |p.1 - p.2|)).sum) / actual.length)

/-- `calculate_mape` (`eval.py` lines 11-37): raises on a length mismatch,
returns infinity (`⊤`) for empty input, falls back to `calculate_mae` when
every actual value is zero, and otherwise averages `|(actual − predicted) /
actual|` over the positions with non-zero actual, times 100. -/
def calculate_mape (actual predicted : List ℚ) : Except String (WithTop ℚ) :=
  if actual.length ≠ predicted.length then
    .error "Actual and predicted arrays must have same length"
  else if actual.length = 0 then .ok ⊤
  else
    let nz := (actual.zip predicted).filter (fun p => p.1 != 0)
    if nz.length = 0 then
      match calculate_mae actual predicted with
      | .ok v => .ok (v : WithTop ℚ)
      | .error e => .error e
    else
      .ok (((((nz.map (fun p => |(p.1 - p.2) / p.1|)).sum) / nz.length) * 100 : ℚ) : WithTop ℚ)

/-- The duck-typed model interface that `backtest_model` and
`ModelSelector.select_best_model` use: any object with `fit` and `predict`
(`models.py` `BaseModel`).  Lean's value semantics replaces Python's in-place
mutation: `fit` returns the updated model state. -/
structure CandModel (M : Type) where
  fit : M → List (ℕ × ℚ) → M
  predict : M → ℕ → List ℚ

/-- `backtest_model` (`eval.py` lines 86-140): sliding-window walk-forward
validation.  Returns the threaded model state (the source mutates the model
in place) together with the score: `⊤` when history is shorter than
`min_train_size + test_size` or no pairs were collected, otherwise the pooled
MAPE.  `Python range(min_train_size, len - test_size + 1, test_size)` has
`(len - min_train_size) / test_size` elements under the length guard.
The source's per-window `try/except` catches `fit`/`predict` exceptions,
which total Lean functions cannot raise. -/
def backtest_model {M : Type} (cm : CandModel M) (m : M)
    (features : List (ℕ × ℚ)) (test_size min_train_size : ℕ) :
    M × Except String (WithTop ℚ) :=
  if features.length < min_train_size + test_size then (m, .ok ⊤)
  else
    let windowStarts := (List.range ((features.length - min_train_size) / test_size)).map
      (fun i => min_train_size + test_size * i)
    let r := windowStarts.foldl
      (fun (acc : M × List ℚ × List ℚ) train_end =>
        let train_data := features.take train_end
        let test_data := (features.drop train_end).take test_size
        if test_data.isEmpty then acc
        else
          let m2 := cm.fit acc.1 train_data
          let forecast := cm.predict m2 test_data.length
          let actual_values := test_data.map Prod.snd
          (m2, acc.2.1 ++ actual_values, acc.2.2 ++ forecast.take actual_values.length))
      (m, [], [])
    if r.2.1.isEmpty then (r.1, .ok ⊤)
    else (r.1, calculate_mape r.2.1 r.2.2)

/-- The model state after the selector's full fit followed by the backtest's
window refits, for one candidate (spec-side abbreviation). -/
def fittedAfter {M : Type} (cm : CandModel M) (features : List (ℕ × ℚ)) (m : M) : M :=
  (backtest_model cm (cm.fit m features) features 7 7).1

/-- The score `ModelSelector.select_best_model` compares for one candidate:
the backtest MAPE, with `⊤` standing for both an infinite score and the
`except`-branch score of `models.py` line 244 (spec-side abbreviation). -/
def effectiveScore {M : Type} (cm : CandModel M) (features : List (ℕ × ℚ)) (m : M) :
    WithTop ℚ :=
  match (backtest_model cm (cm.fit m features) features 7 7).2 with
  | .ok v => v
  | .error _ => ⊤

/-- The loop body of `ModelSelector.select_best_model` (`models.py` lines
229-244): fit the candidate on the full table, backtest it (test_size 7,
min_train_size 7), and keep it iff its score strictly improves on the best so
far.  An error from the backtest corresponds to the source's `except` branch:
the score counts as infinite and the best candidate is not updated. -/
def selector_step {M : Type} (cm : CandModel M) (features : List (ℕ × ℚ))
    (acc : WithTop ℚ × M) (model : M) : WithTop ℚ × M :=
  let m1 := cm.fit model features
  let br := backtest_model cm m1 features 7 7
  let score : WithTop ℚ := match br.2 with | .ok v => v | .error _ => ⊤
  if score < acc.1 then (score, br.1) else acc

/-- `ModelSelector.select_best_model` (`models.py` lines 214-247): an empty
candidate list yields a fresh default model; fewer than 10 feature rows
yields the first candidate untouched; otherwise the loop over the candidates
starting from `(inf, models[0])`.  In the source the returned object is the
winning candidate itself (mutated in place by its refits); here the threaded
value is returned. -/
def select_best_model {M : Type} [Inhabited M] (cm : CandModel M)
    (models : List M) (features : List (ℕ × ℚ)) : M :=
  match models with
  | [] => default
  | m0 :: _ =>
    if features.length < 10 then m0
    else (models.foldl (selector_step cm features) (⊤, m0)).2

/-! ## Helper lemmas -/

lemma list_range_map_sum (f : ℕ → ℚ) (n : ℕ) :
    ((List.range n).map f).sum = ∑ i ∈ Finset.range n, f i := by
  induction n with
  | zero => simp
  | succ n ih =>
    rw [Finset.sum_range_succ, ← ih]
    rw [show List.range (n + 1) = List.range n ++ [n] from by
      simpa using List.range_succ (n := n)]
    simp

lemma foldl_npv_add (c : FinanceCalculator) (l : List CashflowItem) (a : ℚ) :
    l.foldl (fun npv cf => npv + cf.ncf / (1 + c.discount_rate) ^ cf.year) a
      = a + (l.map (fun cf => cf.ncf / (1 + c.discount_rate) ^ cf.year)).sum := by
  induction l generalizing a with
  | nil => simp
  | cons cf rest ih =>
    rw [List.foldl_cons, ih, List.map_cons, List.sum_cons, add_assoc]

/-- `calculate_npv` written as the standard discounted sum. -/
lemma calculate_npv_eq_sum (c : FinanceCalculator) (d : ℚ) (h : ℕ) (g : ℚ) :
    c.calculate_npv d h g
      = -c.capex + ∑ i ∈ Finset.range h,
          (c.calculate_annual_metrics d (i + 1) g).ncf / (1 + c.discount_rate) ^ (i + 1) := by
  rw [FinanceCalculator.calculate_npv, FinanceCalculator.calculate_cashflows, foldl_npv_add,
    List.map_map, ← list_range_map_sum]
  rfl

lemma annual_ncf_eq (c : FinanceCalculator) (d : ℚ) (y : ℕ) (g : ℚ) :
    (c.calculate_annual_metrics d y g).ncf
      = d * 365 * (1 + g) ^ (y - 1) * c.yield_rate * c.capacity_factor * c.tariff
        - (d * 365 * (1 + g) ^ (y - 1) * c.opex_per_ton + c.fixed_opex) := by
  rfl

/-- NPV is monotone in the tariff whenever the generated energy and the
discount factor are non-negative. -/
lemma npv_tariff_mono (c : FinanceCalculator) (d : ℚ) (h : ℕ) (g : ℚ) (t1 t2 : ℚ)
    (hd : 0 ≤ d) (hy : 0 ≤ c.yield_rate) (hcf : 0 ≤ c.capacity_factor)
    (hdr : 0 ≤ c.discount_rate) (hg : 0 ≤ 1 + g) (h12 : t1 ≤ t2) :
    FinanceCalculator.calculate_npv { c with tariff := t1 } d h g
      ≤ FinanceCalculator.calculate_npv { c with tariff := t2 } d h g := by
  rw [calculate_npv_eq_sum, calculate_npv_eq_sum]
  apply add_le_add_left
  apply Finset.sum_le_sum
  intro i _
  apply div_le_div_of_nonneg_right ?_ (pow_nonneg (by linarith) _)
  rw [annual_ncf_eq, annual_ncf_eq]
  apply sub_le_sub_right
  apply mul_le_mul_of_nonneg_left h12
  have hA : (0 : ℚ) ≤ d * 365 * (1 + g) ^ (i + 1 - 1) :=
    mul_nonneg (mul_nonneg hd (by norm_num)) (pow_nonneg hg _)
  exact mul_nonneg (mul_nonneg hA hy) hcf

/-! ## Claim C2: NPV is the discounted-cashflow sum with undiscounted capex -/

/-- C2: `calculate_npv` returns exactly `−capex` plus the sum over years
`1..horizon` of that year's net cashflow divided by `(1+discount_rate)^year`,
with capex undiscounted; and whenever every projected year's net cashflow is
0 and capex is 1,000,000, the NPV is exactly −1,000,000. -/
theorem npv_is_discounted_sum (c : FinanceCalculator) (d : ℚ) (h : ℕ) (g : ℚ) :
    c.calculate_npv d h g
        = -c.capex + ∑ i ∈ Finset.range h,
            (c.calculate_annual_metrics d (i + 1) g).ncf / (1 + c.discount_rate) ^ (i + 1)
      ∧ ((∀ cf ∈ c.calculate_cashflows d h g, cf.ncf = 0) → c.capex = 1000000 →
          c.calculate_npv d h g = -1000000) := by
  refine ⟨calculate_npv_eq_sum c d h g, fun hz hcapex => ?_⟩
  rw [calculate_npv_eq_sum, hcapex]
  have hterm : ∀ i ∈ Finset.range h,
      (c.calculate_annual_metrics d (i + 1) g).ncf / (1 + c.discount_rate) ^ (i + 1) = 0 := by
    intro i hi
    have hmem : (⟨i + 1, (c.calculate_annual_metrics d (i + 1) g).waste_tons,
        (c.calculate_annual_metrics d (i + 1) g).electricity_kwh,
        (c.calculate_annual_metrics d (i + 1) g).revenue,
        (c.calculate_annual_metrics d (i + 1) g).total_opex,
        (c.calculate_annual_metrics d (i + 1) g).ncf⟩ : CashflowItem)
        ∈ c.calculate_cashflows d h g := by
      rw [FinanceCalculator.calculate_cashflows]
      exact List.mem_map.mpr ⟨i, by simpa using Finset.mem_range.mp hi, rfl⟩
    have := hz _ hmem
    simp only [] at this
    rw [this, zero_div]
  rw [Finset.sum_eq_zero hterm]
  norm_num

/-- Calculator with zero revenue and zero opex: every net cashflow is 0. -/
def zeroNcfCalc : FinanceCalculator :=
  { yield_rate := 20, capacity_factor := 1/2, tariff := 0, opex_per_ton := 0,
    fixed_opex := 0, capex := 1000000, discount_rate := 1/10 }

/-- Witness for C2 at a concrete calculator: capex 1,000,000, all-zero net
cashflows over a 5-year horizon, NPV exactly −1,000,000. -/
theorem npv_is_discounted_sum_witness :
    zeroNcfCalc.calculate_npv 3 5 (1/50) = -1000000 :=
  (npv_is_discounted_sum zeroNcfCalc 3 5 (1/50)).2
    (by
      intro cf hcf
      simp only [FinanceCalculator.calculate_cashflows, List.mem_map, List.mem_range] at hcf
      obtain ⟨i, _, rfl⟩ := hcf
      simp [FinanceCalculator.calculate_annual_metrics, zeroNcfCalc])
    rfl

/-! ## Claim C4: tariff sensitivity impact is non-negative -/

/-- C4: in a strictly positive-revenue scenario (non-negative daily quantity,
yield rate, capacity factor, tariff, and discount rate — the ranges the spec's
data model prescribes for `FinancialParameters`), the sensitivity sweep for
`tariff` produces `npv_low` at scale 0.85 and `npv_high` at scale 1.15 with
`npv_low ≤ npv_high`, i.e. the reported impact `npv_high − npv_low` is ≥ 0,
for every horizon. -/
theorem sensitivity_tariff_impact_nonneg (c : FinanceCalculator) (d : ℚ) (h : ℕ)
    (hd : 0 ≤ d) (hy : 0 ≤ c.yield_rate) (hcf : 0 ≤ c.capacity_factor)
    (ht : 0 ≤ c.tariff) (hdr : 0 ≤ c.discount_rate) :
    ∃ npv_low npv_high : ℚ,
      c.sensitivity_analysis d h
          [(ParamName.tariff, [c.tariff * (1 - 3/20), c.tariff * (1 + 3/20)])]
        = [(ParamName.tariff, [npv_low, npv_high])] ∧ npv_low ≤ npv_high := by
  refine ⟨FinanceCalculator.calculate_npv
        (c.create_modified_calculator .tariff (c.tariff * (1 - 3/20))) d h (1/50),
      FinanceCalculator.calculate_npv
        (c.create_modified_calculator .tariff (c.tariff * (1 + 3/20))) d h (1/50),
      ?_, ?_⟩
  · simp [FinanceCalculator.sensitivity_analysis]
  · apply npv_tariff_mono c d h (1/50) _ _ hd hy hcf hdr (by norm_num)
    nlinarith

/-- Parameter set used to witness C4 concretely. -/
def posRevCalc : FinanceCalculator :=
  { yield_rate := 500, capacity_factor := 4/5, tariff := 5, opex_per_ton := 300,
    fixed_opex := 100000, capex := 2000000, discount_rate := 1/10 }

/-- Witness for C4 at a concrete positive-revenue parameter set. -/
theorem sensitivity_tariff_impact_nonneg_witness :
    ∃ npv_low npv_high : ℚ,
      posRevCalc.sensitivity_analysis 2 3
          [(ParamName.tariff, [posRevCalc.tariff * (1 - 3/20), posRevCalc.tariff * (1 + 3/20)])]
        = [(ParamName.tariff, [npv_low, npv_high])] ∧ npv_low ≤ npv_high :=
  sensitivity_tariff_impact_nonneg posRevCalc 2 3 (by norm_num)
    (by norm_num [posRevCalc]) (by norm_num [posRevCalc]) (by norm_num [posRevCalc])
    (by norm_num [posRevCalc])

/-! ## Claim C1: revenue components of a projected cashflow year -/

/-- C1 (settled against the spec-modelled carbon/byproduct-aware calculator,
whose implementation is missing from `src/`): every per-year record of a
projection has `carbon_revenue = (energy_kwh × 0.9/1000) × carbon_credit_price`
(0 when the price is unset), `byproduct_revenue = annualQuantity × 0.3 ×
byproduct_price` when byproduct revenue is enabled and 0 otherwise, and
`revenue_total` equal to the sum of the electricity, carbon and byproduct
revenues. -/
theorem projectYear_revenue_components (c : FinanceCalculatorX) (d : ℚ) (h : ℕ)
    (g : ℚ) (cf : CashflowYear) (hcf : cf ∈ c.projectCashflows d h g) :
    cf.carbon_revenue = cf.energy_kwh * (9/10) / 1000 * (c.carbon_credit_price.getD 0)
      ∧ (c.carbon_credit_price = none → cf.carbon_revenue = 0)
      ∧ cf.byproduct_revenue
          = (if c.enable_byproduct then cf.quantity_tons * (3/10) * c.byproduct_price else 0)
      ∧ cf.revenue_total
          = cf.electricity_revenue + cf.carbon_revenue + cf.byproduct_revenue := by
  rw [FinanceCalculatorX.projectCashflows] at hcf
  obtain ⟨i, _, rfl⟩ := List.mem_map.mp hcf
  refine ⟨rfl, fun hnone => ?_, rfl, rfl⟩
  simp [FinanceCalculatorX.projectYear, hnone]

/-- Concrete carbon/byproduct-aware parameter set used to witness C1. -/
def carbonCalc : FinanceCalculatorX :=
  { yield_rate := 500, capacity_factor := 4/5, tariff := 5, opex_per_ton := 300,
    fixed_opex := 100000, capex := 2000000, discount_rate := 1/10,
    carbon_credit_price := some 1500, byproduct_price := 40,
    enable_byproduct := true }

/-- Witness for C1: the revenue-component equations instantiated on the first
projected year of a concrete projection. -/
theorem projectYear_revenue_components_witness :
    (carbonCalc.projectYear 2 1 (1/50)).carbon_revenue
          = (carbonCalc.projectYear 2 1 (1/50)).energy_kwh * (9/10) / 1000
            * (carbonCalc.carbon_credit_price.getD 0)
      ∧ (carbonCalc.carbon_credit_price = none →
          (carbonCalc.projectYear 2 1 (1/50)).carbon_revenue = 0)
      ∧ (carbonCalc.projectYear 2 1 (1/50)).byproduct_revenue
          = (if carbonCalc.enable_byproduct then
              (carbonCalc.projectYear 2 1 (1/50)).quantity_tons * (3/10)
                * carbonCalc.byproduct_price
            else 0)
      ∧ (carbonCalc.projectYear 2 1 (1/50)).revenue_total
          = (carbonCalc.projectYear 2 1 (1/50)).electricity_revenue
            + (carbonCalc.projectYear 2 1 (1/50)).carbon_revenue
            + (carbonCalc.projectYear 2 1 (1/50)).byproduct_revenue :=
  projectYear_revenue_components carbonCalc 2 3 (1/50) (carbonCalc.projectYear 2 1 (1/50))
    (by
      rw [FinanceCalculatorX.projectCashflows]
      exact List.mem_map.mpr ⟨0, by norm_num, rfl⟩)

/-! ## Payback characterization (claims C3 and C10) -/

/-- Sum of the net cashflows of the first `m` items of a cashflow list. -/
def ncfPrefixSum (l : List CashflowItem) (m : ℕ) : ℚ :=
  ((l.take m).map CashflowItem.ncf).sum

@[simp] lemma ncfPrefixSum_zero (l : List CashflowItem) : ncfPrefixSum l 0 = 0 := rfl

@[simp] lemma ncfPrefixSum_cons_succ (cf : CashflowItem) (l : List CashflowItem) (m : ℕ) :
    ncfPrefixSum (cf :: l) (m + 1) = cf.ncf + ncfPrefixSum l m := by
  simp [ncfPrefixSum]

lemma payback_go_none_iff (capex : ℚ) :
    ∀ (l : List CashflowItem) (cum : ℚ),
      payback_go capex cum l = none ↔
        ∀ m, 1 ≤ m → m ≤ l.length → cum + ncfPrefixSum l m < capex := by
  intro l
  induction l with
  | nil => intro cum; simp [payback_go]; omega
  | cons cf rest ih =>
    intro cum
    rw [payback_go]
    by_cases hle : capex ≤ cum + cf.ncf
    · simp only [hle, if_pos]
      constructor
      · intro hnone; cases hnone
      · intro hall
        have h1 := hall 1 le_rfl (by simp)
        simp only [ncfPrefixSum_cons_succ, ncfPrefixSum_zero, add_zero] at h1
        exact absurd hle (not_le.mpr (by linarith))
    · simp only [hle, if_neg, not_false_iff]
      rw [ih (cum + cf.ncf)]
      constructor
      · intro hall m h1 hm
        match m, h1 with
        | 1, _ =>
          simp only [ncfPrefixSum_cons_succ, ncfPrefixSum_zero, add_zero]
          linarith [not_le.mp hle]
        | (m' + 2), _ =>
          have := hall (m' + 1) (by omega) (by simpa using hm)
          simp only [ncfPrefixSum_cons_succ]
          linarith
      · intro hall m h1 hm
        have := hall (m + 1) (by omega) (by simpa using hm)
        simp only [ncfPrefixSum_cons_succ] at this
        linarith

lemma payback_go_some_iff (capex : ℚ) :
    ∀ (l : List CashflowItem) (cum : ℚ) (v : ℚ),
      payback_go capex cum l = some v ↔
        ∃ k, ∃ hk : k < l.length,
          capex ≤ cum + ncfPrefixSum l (k + 1) ∧
          (∀ m, 1 ≤ m → m ≤ k → cum + ncfPrefixSum l m < capex) ∧
          v = ((l.get ⟨k, hk⟩).year : ℚ) - 1
                + (capex - (cum + ncfPrefixSum l k)) / (l.get ⟨k, hk⟩).ncf := by
  intro l
  induction l with
  | nil => intro cum v; simp [payback_go]
  | cons cf rest ih =>
    intro cum v
    rw [payback_go]
    by_cases hle : capex ≤ cum + cf.ncf
    · simp only [hle, if_pos]
      constructor
      · intro hsome
        refine ⟨0, by simp, ?_, ?_, ?_⟩
        · simpa using hle
        · intro m h1 hm; omega
        · have := Option.some.inj hsome
          simp only [List.get, ncfPrefixSum_zero, add_zero]
          rw [← this]; ring_nf
      · rintro ⟨k, hk, hcross, hbefore, hv⟩
        match k with
        | 0 =>
          simp only [List.get, ncfPrefixSum_zero, add_zero] at hv
          rw [hv]; congr 1; ring_nf
        | (k' + 1) =>
          have h1 := hbefore 1 le_rfl (by omega)
          simp only [ncfPrefixSum_cons_succ, ncfPrefixSum_zero, add_zero] at h1
          exact absurd hle (not_le.mpr (by linarith))
    · simp only [hle, if_neg, not_false_iff]
      rw [ih (cum + cf.ncf) v]
      constructor
      · rintro ⟨k, hk, hcross, hbefore, hv⟩
        refine ⟨k + 1, by simpa using Nat.succ_lt_succ hk, ?_, ?_, ?_⟩
        · simp only [ncfPrefixSum_cons_succ]; linarith
        · intro m h1 hm
          match m, h1 with
          | 1, _ =>
            simp only [ncfPrefixSum_cons_succ, ncfPrefixSum_zero, add_zero]
            linarith [not_le.mp hle]
          | (m' + 2), _ =>
            have := hbefore (m' + 1) (by omega) (by omega)
            simp only [ncfPrefixSum_cons_succ]
            linarith
        · simpa only [List.get, ncfPrefixSum_cons_succ, add_assoc] using hv
      · rintro ⟨k, hk, hcross, hbefore, hv⟩
        match k with
        | 0 =>
          simp only [ncfPrefixSum_cons_succ, ncfPrefixSum_zero, add_zero] at hcross
          exact absurd hcross hle
        | (k' + 1) =>
          refine ⟨k', by simpa using Nat.lt_of_succ_lt_succ hk, ?_, ?_, ?_⟩
          · have := hcross
            simp only [ncfPrefixSum_cons_succ] at this
            linarith
          · intro m h1 hm
            have := hbefore (m + 1) (by omega) (by omega)
            simp only [ncfPrefixSum_cons_succ] at this
            linarith
          · simpa only [List.get, ncfPrefixSum_cons_succ, add_assoc] using hv

@[simp] lemma calculate_cashflows_length (c : FinanceCalculator) (d : ℚ) (h : ℕ) (g : ℚ) :
    (c.calculate_cashflows d h g).length = h := by
  simp [FinanceCalculator.calculate_cashflows]

lemma calculate_cashflows_get (c : FinanceCalculator) (d : ℚ) (h : ℕ) (g : ℚ)
    (k : ℕ) (hk : k < (c.calculate_cashflows d h g).length) :
    (c.calculate_cashflows d h g).get ⟨k, hk⟩
      = { year := k + 1
          waste_tons := (c.calculate_annual_metrics d (k + 1) g).waste_tons
          electricity_kwh := (c.calculate_annual_metrics d (k + 1) g).electricity_kwh
          revenue := (c.calculate_annual_metrics d (k + 1) g).revenue
          opex := (c.calculate_annual_metrics d (k + 1) g).total_opex
          ncf := (c.calculate_annual_metrics d (k + 1) g).ncf } := by
  simp [FinanceCalculator.calculate_cashflows]

lemma ncfPrefixSum_cashflows (c : FinanceCalculator) (d : ℚ) (h : ℕ) (g : ℚ)
    (m : ℕ) (hm : m ≤ h) :
    ncfPrefixSum (c.calculate_cashflows d h g) m = c.cumNcf d g m := by
  rw [ncfPrefixSum, FinanceCalculator.calculate_cashflows, ← List.map_take,
    List.take_range, Nat.min_eq_left hm, List.map_map, list_range_map_sum,
    FinanceCalculator.cumNcf]
  rfl

lemma cumNcf_succ (c : FinanceCalculator) (d g : ℚ) (m : ℕ) :
    c.cumNcf d g (m + 1) = c.cumNcf d g m + (c.calculate_annual_metrics d (m + 1) g).ncf := by
  rw [FinanceCalculator.cumNcf, FinanceCalculator.cumNcf, Finset.sum_range_succ]

/-- Characterization of `calculate_payback` shared by the payback claims:
a finite result identifies the first year whose cumulative net cashflow
reaches capex and interpolates linearly within it. -/
lemma calculate_payback_some_iff (c : FinanceCalculator) (d : ℚ) (h : ℕ) (g : ℚ) (v : ℚ) :
    c.calculate_payback d h g = some v ↔
      ∃ k, ∃ _ : k < h,
        c.capex ≤ c.cumNcf d g (k + 1) ∧
        (∀ m, 1 ≤ m → m ≤ k → c.cumNcf d g m < c.capex) ∧
        v = (k : ℚ) + (c.capex - c.cumNcf d g k)
              / (c.calculate_annual_metrics d (k + 1) g).ncf := by
  rw [FinanceCalculator.calculate_payback, payback_go_some_iff]
  constructor
  · rintro ⟨k, hk, hcross, hbefore, hv⟩
    have hkh : k < h := by simpa using hk
    refine ⟨k, hkh, ?_, ?_, ?_⟩
    · rw [← ncfPrefixSum_cashflows c d h g (k + 1) hkh]
      simpa using hcross
    · intro m h1 hm
      have := hbefore m h1 hm
      rwa [ncfPrefixSum_cashflows c d h g m (le_trans hm hkh.le), zero_add] at this
    · rw [hv, calculate_cashflows_get,
        ncfPrefixSum_cashflows c d h g k hkh.le]
      push_cast
      ring_nf
  · rintro ⟨k, hkh, hcross, hbefore, hv⟩
    have hk : k < (c.calculate_cashflows d h g).length := by simpa using hkh
    refine ⟨k, hk, ?_, ?_, ?_⟩
    · rw [ncfPrefixSum_cashflows c d h g (k + 1) hkh, zero_add]
      exact hcross
    · intro m h1 hm
      rw [ncfPrefixSum_cashflows c d h g m (le_trans hm (Nat.lt_of_lt_of_le hkh le_rfl).le),
        zero_add]
      exact hbefore m h1 hm
    · rw [hv, calculate_cashflows_get,
        ncfPrefixSum_cashflows c d h g k hkh.le]
      push_cast
      ring_nf

lemma calculate_payback_none_iff (c : FinanceCalculator) (d : ℚ) (h : ℕ) (g : ℚ) :
    c.calculate_payback d h g = none ↔
      ∀ m, 1 ≤ m → m ≤ h → c.cumNcf d g m < c.capex := by
  rw [FinanceCalculator.calculate_payback, payback_go_none_iff]
  constructor
  · intro hall m h1 hm
    have := hall m h1 (by simpa using hm)
    rwa [ncfPrefixSum_cashflows c d h g m hm, zero_add] at this
  · intro hall m h1 hm
    rw [ncfPrefixSum_cashflows c d h g m (by simpa using hm), zero_add]
    exact hall m h1 (by simpa using hm)

/-! ## Claim C3: payback accumulates cashflows and interpolates linearly -/

/-- Calculator whose projection at growth rate 0 has a constant net cashflow
of 100 per year (revenue `365 × (100/365) = 100`, zero opex) and capex 300. -/
def payback100 : FinanceCalculator :=
  { yield_rate := 1, capacity_factor := 1, tariff := 100/365, opex_per_ton := 0,
    fixed_opex := 0, capex := 300, discount_rate := 1/10 }

/-- C3: `calculate_payback` accumulates net cashflows year by year; a finite
result identifies the first year `k+1` whose cumulative net cashflow reaches
capex and equals `(k+1) − 1` plus the remaining amount to recover divided by
that year's net cashflow; the result is infinite (`none`) exactly when the
cumulative sum never reaches capex within the horizon; and with capex 300 and
yearly net cashflows `[100, 100, 100, 100]` the result is exactly 3. -/
theorem payback_first_crossing (c : FinanceCalculator) (d : ℚ) (h : ℕ) (g : ℚ) :
    (∀ v : ℚ, c.calculate_payback d h g = some v ↔
        ∃ k, ∃ _ : k < h,
          c.capex ≤ c.cumNcf d g (k + 1) ∧
          (∀ m, 1 ≤ m → m ≤ k → c.cumNcf d g m < c.capex) ∧
          v = (k : ℚ) + (c.capex - c.cumNcf d g k)
                / (c.calculate_annual_metrics d (k + 1) g).ncf)
      ∧ (c.calculate_payback d h g = none ↔
          ∀ m, 1 ≤ m → m ≤ h → c.cumNcf d g m < c.capex)
      ∧ payback100.calculate_payback 1 4 0 = some 3 := by
  refine ⟨fun v => calculate_payback_some_iff c d h g v,
    calculate_payback_none_iff c d h g, ?_⟩
  norm_num [FinanceCalculator.calculate_payback, FinanceCalculator.calculate_cashflows,
    FinanceCalculator.calculate_annual_metrics, payback_go, payback100, List.range_succ]

/-- Witness for C3: the concrete payback computation extracted through the
theorem. -/
theorem payback_first_crossing_witness :
    payback100.calculate_payback 1 4 0 = some 3 :=
  (payback_first_crossing payback100 1 4 0).2.2

/-! ## Claim C10: the crossing year's net cashflow is strictly positive -/

/-- C10: when capex is strictly positive and `calculate_payback` returns a
finite value `v`, the first crossing year `k+1` has a strictly positive net
cashflow (so the interpolation never divides by zero or a negative number)
and `v` lies in the half-open interval `(k, k+1]`. -/
theorem payback_interpolation_safe (c : FinanceCalculator) (d : ℚ) (h : ℕ) (g : ℚ)
    (v : ℚ) (hcapex : 0 < c.capex) (hv : c.calculate_payback d h g = some v) :
    ∃ k, ∃ _ : k < h,
      0 < (c.calculate_annual_metrics d (k + 1) g).ncf ∧
      c.capex ≤ c.cumNcf d g (k + 1) ∧
      (∀ m, 1 ≤ m → m ≤ k → c.cumNcf d g m < c.capex) ∧
      (k : ℚ) < v ∧ v ≤ (k : ℚ) + 1 := by
  obtain ⟨k, hk, hcross, hbefore, hveq⟩ := (calculate_payback_some_iff c d h g v).mp hv
  have hprev : c.cumNcf d g k < c.capex := by
    match k with
    | 0 => simpa [FinanceCalculator.cumNcf] using hcapex
    | (k' + 1) => exact hbefore (k' + 1) (by omega) le_rfl
  have hncf : 0 < (c.calculate_annual_metrics d (k + 1) g).ncf := by
    have := cumNcf_succ c d g k
    linarith
  have hfrac_pos : 0 < (c.capex - c.cumNcf d g k)
      / (c.calculate_annual_metrics d (k + 1) g).ncf :=
    div_pos (by linarith) hncf
  have hfrac_le : (c.capex - c.cumNcf d g k)
      / (c.calculate_annual_metrics d (k + 1) g).ncf ≤ 1 := by
    rw [div_le_one hncf]
    have := cumNcf_succ c d g k
    linarith
  exact ⟨k, hk, hncf, hcross, hbefore, by linarith [hveq.ge, hveq.le], by linarith [hveq.le]⟩

/-- Witness for C10 at the concrete payback computation: capex 300, constant
net cashflow 100, finite payback 3. -/
theorem payback_interpolation_safe_witness :
    ∃ k, ∃ _ : k < 4,
      0 < (payback100.calculate_annual_metrics 1 (k + 1) 0).ncf ∧
      payback100.capex ≤ payback100.cumNcf 1 0 (k + 1) ∧
      (∀ m, 1 ≤ m → m ≤ k → payback100.cumNcf 1 0 m < payback100.capex) ∧
      (k : ℚ) < 3 ∧ (3 : ℚ) ≤ (k : ℚ) + 1 :=
  payback_interpolation_safe payback100 1 4 0 3 (by norm_num [payback100])
    (by norm_num [FinanceCalculator.calculate_payback, FinanceCalculator.calculate_cashflows,
      FinanceCalculator.calculate_annual_metrics, payback_go, payback100, List.range_succ])

/-! ## Claim C5: behaviour of the feature builder on zero observations -/

/-- C5 counterexample: on zero observations `create_forecast_features` does
not fail — the source's `if df_logs.empty: return pd.DataFrame()` returns the
empty feature table as an ordinary value, and no `EmptyInputError` exists
anywhere in the tree. -/
theorem empty_input_returns_value_counterexample :
    create_forecast_features [] = [] := rfl

/-- C5 amended: when given zero observations the feature builder returns the
empty feature table (an ordinary value) instead of failing. -/
theorem empty_input_returns_empty_table (obs : List (ℕ × ℚ)) (hobs : obs = []) :
    create_forecast_features obs = [] := by
  rw [hobs]; rfl

/-- Witness for the amended C5 at the concrete empty input. -/
theorem empty_input_returns_empty_table_witness :
    create_forecast_features ([] : List (ℕ × ℚ)) = [] :=
  empty_input_returns_empty_table [] rfl

/-! ## Claim C6: one row per calendar day, zero-filled -/

lemma foldl_min_le_init (l : List ℕ) : ∀ a : ℕ, l.foldl min a ≤ a := by
  induction l with
  | nil => intro a; simp
  | cons x xs ih =>
    intro a
    calc (x :: xs).foldl min a = xs.foldl min (min a x) := rfl
    _ ≤ min a x := ih (min a x)
    _ ≤ a := min_le_left a x

lemma foldl_min_le_mem (l : List ℕ) : ∀ (a x : ℕ), x ∈ l → l.foldl min a ≤ x := by
  induction l with
  | nil => intro a x hx; cases hx
  | cons y ys ih =>
    intro a x hx
    rcases List.mem_cons.mp hx with rfl | hx
    · calc (x :: ys).foldl min a = ys.foldl min (min a x) := rfl
      _ ≤ min a x := foldl_min_le_init ys (min a x)
      _ ≤ x := min_le_right a x
    · exact ih (min a y) x hx

lemma foldl_min_eq_init_or_mem (l : List ℕ) : ∀ a : ℕ, l.foldl min a = a ∨ l.foldl min a ∈ l := by
  induction l with
  | nil => intro a; left; rfl
  | cons y ys ih =>
    intro a
    rcases ih (min a y) with h | h
    · rcases min_choice a y with hm | hm
      · left; rw [List.foldl_cons, h, hm]
      · right; rw [List.foldl_cons, h, hm]; exact List.mem_cons_self y ys
    · right; exact List.mem_cons_of_mem y h

lemma le_foldl_max_init (l : List ℕ) : ∀ a : ℕ, a ≤ l.foldl max a := by
  induction l with
  | nil => intro a; simp
  | cons x xs ih =>
    intro a
    calc a ≤ max a x := le_max_left a x
    _ ≤ xs.foldl max (max a x) := ih (max a x)
    _ = (x :: xs).foldl max a := rfl

lemma mem_le_foldl_max (l : List ℕ) : ∀ (a x : ℕ), x ∈ l → x ≤ l.foldl max a := by
  induction l with
  | nil => intro a x hx; cases hx
  | cons y ys ih =>
    intro a x hx
    rcases List.mem_cons.mp hx with rfl | hx
    · calc x ≤ max a x := le_max_right a x
      _ ≤ ys.foldl max (max a x) := le_foldl_max_init ys (max a x)
      _ = (x :: ys).foldl max a := rfl
    · exact ih (max a y) x hx

lemma foldl_max_eq_init_or_mem (l : List ℕ) : ∀ a : ℕ, l.foldl max a = a ∨ l.foldl max a ∈ l := by
  induction l with
  | nil => intro a; left; rfl
  | cons y ys ih =>
    intro a
    rcases ih (max a y) with h | h
    · rcases max_choice a y with hm | hm
      · left; rw [List.foldl_cons, h, hm]
      · right; rw [List.foldl_cons, h, hm]; exact List.mem_cons_self y ys
    · right; exact List.mem_cons_of_mem y h

lemma minDate_mem (obs : List (ℕ × ℚ)) (h : obs ≠ []) : minDate obs ∈ obsDates obs := by
  match obs with
  | [] => exact absurd rfl h
  | p :: ps =>
    rw [minDate]
    rcases foldl_min_eq_init_or_mem (obsDates (p :: ps)) p.1 with heq | hmem
    · rw [heq]; exact List.mem_cons_self p.1 _
    · exact hmem

lemma maxDate_mem (obs : List (ℕ × ℚ)) (h : obs ≠ []) : maxDate obs ∈ obsDates obs := by
  match obs with
  | [] => exact absurd rfl h
  | p :: ps =>
    rw [maxDate]
    rcases foldl_max_eq_init_or_mem (obsDates (p :: ps)) p.1 with heq | hmem
    · rw [heq]; exact List.mem_cons_self p.1 _
    · exact hmem

lemma minDate_le (obs : List (ℕ × ℚ)) (d : ℕ) (hd : d ∈ obsDates obs) : minDate obs ≤ d := by
  match obs with
  | [] => cases hd
  | p :: ps => exact foldl_min_le_mem (obsDates (p :: ps)) p.1 d hd

lemma le_maxDate (obs : List (ℕ × ℚ)) (d : ℕ) (hd : d ∈ obsDates obs) : d ≤ maxDate obs := by
  match obs with
  | [] => cases hd
  | p :: ps => exact mem_le_foldl_max (obsDates (p :: ps)) p.1 d hd

lemma minDate_le_maxDate (obs : List (ℕ × ℚ)) (h : obs ≠ []) :
    minDate obs ≤ maxDate obs :=
  le_trans (minDate_le obs (minDate obs) (minDate_mem obs h))
    (le_maxDate obs (minDate obs) (minDate_mem obs h))

/-- Master lemma: on a non-empty observation list the feature builder's
date/quantity core is exactly one row per calendar day from the first to the
last observed date, each carrying the summed quantity for that day.  The
source's `len(daily_data) > 1` branch produces this list directly; in the
other branch there is a single distinct observed date, so the first and last
dates coincide and the un-reindexed aggregate is the same one-row list. -/
lemma create_forecast_features_eq (obs : List (ℕ × ℚ)) (h : obs ≠ []) :
    create_forecast_features obs
      = (List.range (maxDate obs - minDate obs + 1)).map
          (fun i => (minDate obs + i, sumOn obs (minDate obs + i))) := by
  rw [create_forecast_features, if_neg (by simpa [List.isEmpty_iff] using h)]
  by_cases hlen : 1 < (aggregateDaily obs).length
  · rw [if_pos hlen]
  · rw [if_neg hlen]
    have hlm : (aggregateDaily obs).length ≤ 1 := Nat.not_lt.mp hlen
    have hminmem : (minDate obs, sumOn obs (minDate obs)) ∈ aggregateDaily obs := by
      rw [aggregateDaily]
      refine List.mem_map.mpr ⟨minDate obs, ?_, rfl⟩
      rw [List.mem_filter]
      exact ⟨List.mem_map.mpr ⟨0, by simp, by simp⟩, by
        simpa using minDate_mem obs h⟩
    have hmaxmem : (maxDate obs, sumOn obs (maxDate obs)) ∈ aggregateDaily obs := by
      have hle := minDate_le_maxDate obs h
      rw [aggregateDaily]
      refine List.mem_map.mpr ⟨maxDate obs, ?_, rfl⟩
      rw [List.mem_filter]
      exact ⟨List.mem_map.mpr ⟨maxDate obs - minDate obs, by simp, by omega⟩, by
        simpa using maxDate_mem obs h⟩
    obtain ⟨x, hx⟩ : ∃ x, aggregateDaily obs = [x] := by
      rcases hagg : aggregateDaily obs with _ | ⟨x, _ | ⟨y, t⟩⟩
      · rw [hagg] at hminmem; cases hminmem
      · exact ⟨x, rfl⟩
      · rw [hagg] at hlm; simp at hlm
    have h1 : (minDate obs, sumOn obs (minDate obs)) = x := by
      rw [hx] at hminmem; simpa using hminmem
    have h2 : (maxDate obs, sumOn obs (maxDate obs)) = x := by
      rw [hx] at hmaxmem; simpa using hmaxmem
    have hmm : minDate obs = maxDate obs := by
      have := congrArg Prod.fst (h1.trans h2.symm)
      simpa using this
    have hspan : maxDate obs - minDate obs + 1 = 1 := by omega
    rw [hx, ← h1, hspan]
    rfl

/-- C6: for every non-empty observation list spanning dates `D1..D2` (gaps and
repeated dates allowed), the feature builder's output has exactly `D2−D1+1`
rows, in strictly increasing date order (hence no duplicate dates), the `i`-th
row being day `D1+i` with the summed quantity of that day's observations —
0 for days with no observation. -/
theorem feature_table_complete (obs : List (ℕ × ℚ)) (hne : obs ≠ []) :
    (create_forecast_features obs).length = maxDate obs - minDate obs + 1
      ∧ List.Pairwise (fun a b : ℕ × ℚ => a.1 < b.1) (create_forecast_features obs)
      ∧ (∀ i, ∀ hi : i < (create_forecast_features obs).length,
          (create_forecast_features obs).get ⟨i, hi⟩
            = (minDate obs + i, sumOn obs (minDate obs + i)))
      ∧ (∀ d : ℕ, (∀ p ∈ obs, p.1 ≠ d) → sumOn obs d = 0) := by
  rw [create_forecast_features_eq obs hne]
  refine ⟨by simp, ?_, ?_, ?_⟩
  · rw [List.pairwise_map]
    exact (List.pairwise_lt_range _).imp (fun hij => by simpa using hij)
  · intro i hi
    simp
  · intro d hd
    rw [sumOn]
    have : obs.filter (fun p => p.1 == d) = [] := by
      rw [List.filter_eq_nil_iff]
      intro p hp
      simpa using hd p hp
    rw [this]
    rfl

/-- Observation list used to witness C6: duplicate date 3, gap at day 4. -/
def obsWitness : List (ℕ × ℚ) := [(3, 2), (5, 1), (3, 4)]

/-- Witness for C6 at a concrete observation list with a duplicated date and
a calendar gap, together with the fully evaluated output table. -/
theorem feature_table_complete_witness :
    ((create_forecast_features obsWitness).length
          = maxDate obsWitness - minDate obsWitness + 1
        ∧ List.Pairwise (fun a b : ℕ × ℚ => a.1 < b.1) (create_forecast_features obsWitness)
        ∧ (∀ i, ∀ hi : i < (create_forecast_features obsWitness).length,
            (create_forecast_features obsWitness).get ⟨i, hi⟩
              = (minDate obsWitness + i, sumOn obsWitness (minDate obsWitness + i)))
        ∧ (∀ d : ℕ, (∀ p ∈ obsWitness, p.1 ≠ d) → sumOn obsWitness d = 0))
      ∧ create_forecast_features obsWitness = [(3, 6), (4, 0), (5, 1)] :=
  ⟨feature_table_complete obsWitness (by simp [obsWitness]),
    by norm_num [create_forecast_features, aggregateDaily, obsWitness, obsDates,
      minDate, maxDate, sumOn, List.range_succ, List.filter_cons]⟩

/-! ## Claim C7: deterministic forecast formula and non-negativity -/

lemma det_predict_nonneg (m : DeterministicModel) (n : ℕ) :
    ∀ x ∈ m.predict n, 0 ≤ x := by
  intro x hx
  rw [DeterministicModel.predict] at hx
  by_cases hf : m.is_fitted = false
  · rw [if_pos hf] at hx
    rw [List.eq_of_mem_replicate hx]
    norm_num
  · rw [if_neg hf] at hx
    obtain ⟨t, _, rfl⟩ := List.mem_map.mp hx
    exact le_max_left 0 _

/-- C7: a fitted `DeterministicModel.predict n` is exactly the `n` values
`base_value × (1+growth_rate)^t` for `t = 1..n`, each floored at 0, with no
randomness; and every value predicted by either model variant — the fitted
deterministic model and the seasonal model through any of its fallback paths —
is non-negative. -/
theorem predict_formula_and_nonneg (m : DeterministicModel) (s : SARIMAModel)
    (n : ℕ) (hm : m.is_fitted = true) (hs : s.is_fitted = true) (hn : 1 ≤ n) :
    m.predict n
        = (List.range n).map (fun t => max 0 (m.base_value * (1 + m.growth_rate) ^ (t + 1)))
      ∧ (m.predict n).length = n
      ∧ (∀ x ∈ m.predict n, 0 ≤ x)
      ∧ (∀ x ∈ s.predict n, 0 ≤ x) := by
  refine ⟨?_, ?_, det_predict_nonneg m n, ?_⟩
  · rw [DeterministicModel.predict, if_neg (by simp [hm])]
  · rw [DeterministicModel.predict, if_neg (by simp [hm])]
    simp
  · intro x hx
    rw [SARIMAModel.predict, if_neg (by simp [hs])] at hx
    cases hbf : s.base_forecast with
    | some bf =>
      rw [hbf] at hx
      exact det_predict_nonneg bf n x hx
    | none =>
      rw [hbf] at hx
      dsimp only at hx
      cases hfm : s.fitted_model with
      | none =>
        rw [hfm] at hx
        rw [List.eq_of_mem_replicate hx]
        norm_num
      | some f =>
        rw [hfm] at hx
        dsimp only at hx
        cases hf : f n with
        | none =>
          rw [hf] at hx
          rw [List.eq_of_mem_replicate hx]
          norm_num
        | some forecast =>
          rw [hf] at hx
          dsimp only at hx
          obtain ⟨v, _, rfl⟩ := List.mem_map.mp hx
          exact le_max_left 0 v

/-- A concrete fitted deterministic model. -/
def detFitted : DeterministicModel :=
  { default_growth_rate := 1/500, base_value := 2, growth_rate := 1/100,
    is_fitted := true }

/-- A concrete fitted seasonal model whose library oracle forecasts a negative
constant, exercising the non-negativity clamp. -/
def sarimaFitted : SARIMAModel :=
  { is_fitted := true, base_forecast := none,
    fitted_model := some (fun k => some (List.replicate k (-5))) }

/-- Witness for C7 at concrete fitted models, with the deterministic forecast
fully evaluated. -/
theorem predict_formula_and_nonneg_witness :
    (detFitted.predict 3
          = (List.range 3).map
              (fun t => max 0 (detFitted.base_value * (1 + detFitted.growth_rate) ^ (t + 1)))
        ∧ (detFitted.predict 3).length = 3
        ∧ (∀ x ∈ detFitted.predict 3, 0 ≤ x)
        ∧ (∀ x ∈ sarimaFitted.predict 3, 0 ≤ x))
      ∧ detFitted.predict 3 = [101/50, 10201/5000, 1030301/500000]
      ∧ sarimaFitted.predict 3 = [0, 0, 0] :=
  ⟨predict_formula_and_nonneg detFitted sarimaFitted 3 rfl rfl (by norm_num),
    by norm_num [DeterministicModel.predict, detFitted, List.range_succ],
    by norm_num [SARIMAModel.predict, sarimaFitted, List.replicate]⟩

/-! ## Claim C8: pooled MAPE over non-zero actuals, MAE fallback -/

/-- C8 counterexample: at `actual = [-10]`, `predicted = [0]` the code returns
100 (it averages `|(actual − predicted) / actual|`), while the claim's formula
`|actual − predicted| / actual × 100` evaluates to −100 at the only non-zero
position, so the claimed equality fails. -/
theorem mape_negative_actual_counterexample :
    calculate_mape [(-10 : ℚ)] [0] = .ok ((100 : ℚ) : WithTop ℚ)
      ∧ (|(-10 : ℚ) - 0| / (-10)) * 100 = (-100 : ℚ)
      ∧ ¬ calculate_mape [(-10 : ℚ)] [0]
          = .ok (((|(-10 : ℚ) - 0| / (-10)) * 100 : ℚ) : WithTop ℚ) := by
  have h1 : calculate_mape [(-10 : ℚ)] [0] = .ok ((100 : ℚ) : WithTop ℚ) := by
    norm_num [calculate_mape, List.filter_cons]
  refine ⟨h1, by norm_num, ?_⟩
  rw [h1, show ((|(-10 : ℚ) - 0| / (-10)) * 100 : ℚ) = -100 by norm_num]
  intro hcon
  have h2 : ((100 : ℚ) : WithTop ℚ) = ((-100 : ℚ) : WithTop ℚ) := Except.ok.inj hcon
  exact absurd (WithTop.coe_eq_coe.mp h2) (by norm_num)

/-- C8 amended (the absolute value is taken of the whole quotient, i.e. the
denominator is `|actual|`): for equal-length non-empty lists the MAPE is the
mean of `|actual − predicted| / |actual| × 100` over the positions with
non-zero actual; when every actual is 0 it equals the mean absolute error;
and on `actual = [10,20,0,30]`, `predicted = [12,18,5,33]` it is exactly
`40/3` (= 13.33...%), the mean of 20, 10 and 10. -/
theorem mape_pooled_mean (actual predicted : List ℚ)
    (hl : actual.length = predicted.length) (hne : actual ≠ []) :
    (∀ nz, nz = (actual.zip predicted).filter (fun p => p.1 != 0) → nz ≠ [] →
        calculate_mape actual predicted
          = .ok ((((nz.map (fun p => |p.1 - p.2| / |p.1|)).sum / nz.length) * 100 : ℚ)
              : WithTop ℚ))
      ∧ ((∀ a ∈ actual, a = 0) → ∃ v : ℚ,
          calculate_mae actual predicted = .ok v
            ∧ calculate_mape actual predicted = .ok (v : WithTop ℚ))
      ∧ calculate_mape [10, 20, 0, 30] [12, 18, 5, 33]
          = .ok ((40/3 : ℚ) : WithTop ℚ) := by
  have hlen0 : actual.length ≠ 0 := by
    simpa [List.length_eq_zero] using hne
  refine ⟨?_, ?_, ?_⟩
  · rintro nz rfl hnz
    rw [calculate_mape, if_neg (by simp [hl]), if_neg hlen0]
    dsimp only
    rw [if_neg (by simpa [List.length_eq_zero] using hnz)]
    have hmap : ((actual.zip predicted).filter (fun p => p.1 != 0)).map
          (fun p => |(p.1 - p.2) / p.1|)
        = ((actual.zip predicted).filter (fun p => p.1 != 0)).map
          (fun p => |p.1 - p.2| / |p.1|) :=
      List.map_congr_left (fun p _ => abs_div _ _)
    rw [hmap]
  · intro hz
    have hnz : (actual.zip predicted).filter (fun p => p.1 != 0) = [] := by
      rw [List.filter_eq_nil_iff]
      intro p hp
      have : p.1 ∈ actual := (List.of_mem_zip hp).1
      simpa using hz p.1 this
    refine ⟨(((actual.zip predicted).map (fun p => |p.1 - p.2|)).sum) / actual.length,
      ?_, ?_⟩
    · rw [calculate_mae, if_neg (by simp [hl])]
    · rw [calculate_mape, if_neg (by simp [hl]), if_neg hlen0]
      dsimp only
      rw [if_pos (by simp [hnz]), calculate_mae, if_neg (by simp [hl])]
  · norm_num [calculate_mape, calculate_mae, List.filter_cons,
      show |(1:ℚ)/5| = 1/5 from abs_of_pos (by norm_num),
      show |(1:ℚ)/10| = 1/10 from abs_of_pos (by norm_num)]

/-- Witness for C8 (amended) at the claim's own test vector, where the
non-zero positions are `(10,12)`, `(20,18)` and `(30,33)`. -/
theorem mape_pooled_mean_witness :
    (∀ nz, nz = (([10, 20, 0, 30] : List ℚ).zip [12, 18, 5, 33]).filter (fun p => p.1 != 0) →
        nz ≠ [] →
        calculate_mape [10, 20, 0, 30] [12, 18, 5, 33]
          = .ok ((((nz.map (fun p => |p.1 - p.2| / |p.1|)).sum / nz.length) * 100 : ℚ)
              : WithTop ℚ))
      ∧ ((∀ a ∈ ([10, 20, 0, 30] : List ℚ), a = 0) → ∃ v : ℚ,
          calculate_mae [10, 20, 0, 30] [12, 18, 5, 33] = .ok v
            ∧ calculate_mape [10, 20, 0, 30] [12, 18, 5, 33] = .ok (v : WithTop ℚ))
      ∧ calculate_mape [10, 20, 0, 30] [12, 18, 5, 33]
          = .ok ((40/3 : ℚ) : WithTop ℚ) :=
  mape_pooled_mean [10, 20, 0, 30] [12, 18, 5, 33] (by norm_num) (by simp)

/-! ## Claim C9: model selection picks the first lowest-score candidate -/

lemma selector_step_eq {M : Type} (cm : CandModel M) (features : List (ℕ × ℚ))
    (acc : WithTop ℚ × M) (model : M) :
    selector_step cm features acc model
      = if effectiveScore cm features model < acc.1
        then (effectiveScore cm features model, fittedAfter cm features model)
        else acc := rfl

/-- The selector loop starting from `(s0, b0)` either never improves on `s0`
(and leaves the accumulator untouched) or lands on the earliest candidate
whose score is the minimum, strictly below every earlier candidate's score. -/
lemma selector_foldl_spec {M : Type} (cm : CandModel M) (features : List (ℕ × ℚ)) :
    ∀ (l : List M) (s0 : WithTop ℚ) (b0 : M),
      (l.foldl (selector_step cm features) (s0, b0) = (s0, b0)
          ∧ ∀ m ∈ l, s0 ≤ effectiveScore cm features m)
        ∨ (∃ i, ∃ hi : i < l.length,
            effectiveScore cm features (l.get ⟨i, hi⟩) < s0
            ∧ (∀ j, ∀ hj : j < l.length,
                effectiveScore cm features (l.get ⟨i, hi⟩)
                  ≤ effectiveScore cm features (l.get ⟨j, hj⟩))
            ∧ (∀ j, ∀ hj : j < l.length, j < i →
                effectiveScore cm features (l.get ⟨i, hi⟩)
                  < effectiveScore cm features (l.get ⟨j, hj⟩))
            ∧ l.foldl (selector_step cm features) (s0, b0)
                = (effectiveScore cm features (l.get ⟨i, hi⟩),
                   fittedAfter cm features (l.get ⟨i, hi⟩))) := by
  intro l
  induction l with
  | nil =>
    intro s0 b0
    left
    exact ⟨rfl, by simp⟩
  | cons m0 rest ih =>
    intro s0 b0
    rw [List.foldl_cons, selector_step_eq]
    by_cases h0 : effectiveScore cm features m0 < s0
    · rw [if_pos h0]
      rcases ih (effectiveScore cm features m0) (fittedAfter cm features m0) with
        ⟨heq, hall⟩ | ⟨i, hi, hlt, hmin, hstrict, heq⟩
      · right
        refine ⟨0, by simp, h0, ?_, ?_, heq⟩
        · intro j hj
          match j, hj with
          | 0, _ => exact le_rfl
          | (j' + 1), hj =>
            have hj2 : j' < rest.length := by simpa using hj
            exact hall (rest.get ⟨j', hj2⟩) (List.get_mem rest j' hj2)
        · intro j hj hji
          omega
      · right
        refine ⟨i + 1, by simpa using Nat.succ_lt_succ hi, lt_trans hlt h0, ?_, ?_, heq⟩
        · intro j hj
          match j, hj with
          | 0, _ => exact le_of_lt hlt
          | (j' + 1), hj =>
            have hj2 : j' < rest.length := by simpa using hj
            exact hmin j' hj2
        · intro j hj hji
          match j, hj with
          | 0, _ => exact hlt
          | (j' + 1), hj =>
            have hj2 : j' < rest.length := by simpa using hj
            exact hstrict j' hj2 (by omega)
    · rw [if_neg h0]
      rcases ih s0 b0 with ⟨heq, hall⟩ | ⟨i, hi, hlt, hmin, hstrict, heq⟩
      · left
        refine ⟨heq, ?_⟩
        intro m hm
        rcases List.mem_cons.mp hm with rfl | hm
        · exact not_lt.mp h0
        · exact hall m hm
      · right
        refine ⟨i + 1, by simpa using Nat.succ_lt_succ hi, hlt, ?_, ?_, heq⟩
        · intro j hj
          match j, hj with
          | 0, _ => exact le_of_lt (lt_of_lt_of_le hlt (not_lt.mp h0))
          | (j' + 1), hj =>
            have hj2 : j' < rest.length := by simpa using hj
            exact hmin j' hj2
        · intro j hj hji
          match j, hj with
          | 0, _ => exact lt_of_lt_of_le hlt (not_lt.mp h0)
          | (j' + 1), hj =>
            have hj2 : j' < rest.length := by simpa using hj
            exact hstrict j' hj2 (by omega)

/-- C9: for a non-empty candidate list, fewer than 10 feature rows makes
`select_best_model` return the first candidate unmodified; otherwise the
chosen candidate is the earliest one attaining the minimum backtest score
(its score is ≤ every candidate's and strictly below every earlier-listed
candidate's); and the selection is deterministic: identical inputs in
identical order give the identical chosen model. -/
theorem select_best_model_first_min {M : Type} [Inhabited M] (cm : CandModel M)
    (m0 : M) (rest : List M) (features : List (ℕ × ℚ)) :
    (features.length < 10 → select_best_model cm (m0 :: rest) features = m0)
      ∧ (10 ≤ features.length →
          ∃ i, ∃ hi : i < (m0 :: rest).length,
            (∀ j, ∀ hj : j < (m0 :: rest).length,
              effectiveScore cm features ((m0 :: rest).get ⟨i, hi⟩)
                ≤ effectiveScore cm features ((m0 :: rest).get ⟨j, hj⟩))
            ∧ (∀ j, ∀ hj : j < (m0 :: rest).length, j < i →
                effectiveScore cm features ((m0 :: rest).get ⟨i, hi⟩)
                  < effectiveScore cm features ((m0 :: rest).get ⟨j, hj⟩))
            ∧ (select_best_model cm (m0 :: rest) features
                  = fittedAfter cm features ((m0 :: rest).get ⟨i, hi⟩)
                ∨ (i = 0 ∧ select_best_model cm (m0 :: rest) features = m0)))
      ∧ (∀ models2 features2, models2 = m0 :: rest → features2 = features →
          select_best_model cm models2 features2
            = select_best_model cm (m0 :: rest) features) := by
  have hunfold : select_best_model cm (m0 :: rest) features
      = if features.length < 10 then m0
        else ((m0 :: rest).foldl (selector_step cm features) (⊤, m0)).2 := rfl
  refine ⟨?_, ?_, ?_⟩
  · intro hlt
    rw [hunfold, if_pos hlt]
  · intro hge
    have hnot : ¬ features.length < 10 := not_lt.mpr hge
    rcases selector_foldl_spec cm features (m0 :: rest) ⊤ m0 with
      ⟨heq, hall⟩ | ⟨i, hi, _, hmin, hstrict, heq⟩
    · refine ⟨0, by simp, ?_, ?_, ?_⟩
      · intro j hj
        have htop : effectiveScore cm features ((m0 :: rest).get ⟨j, hj⟩) = ⊤ :=
          top_le_iff.mp (hall _ (List.get_mem _ j hj))
        rw [htop]
        exact le_top
      · intro j hj hji
        omega
      · right
        refine ⟨rfl, ?_⟩
        rw [hunfold, if_neg hnot, heq]
    · refine ⟨i, hi, hmin, hstrict, Or.inl ?_⟩
      rw [hunfold, if_neg hnot, heq]
  · intro models2 features2 hm hf
    rw [hm, hf]

/-- A minimal concrete candidate type instantiating the duck-typed selector:
state is a single rational, `fit` keeps it, `predict` forecasts it
constantly. -/
def constCand : CandModel ℚ :=
  { fit := fun m _ => m, predict := fun m n => List.replicate n m }

/-- A three-row feature table (fewer than 10 rows). -/
def featsSmall : List (ℕ × ℚ) := [(0, 1), (1, 2), (2, 3)]

/-- Witness for C9: with fewer than 10 feature rows the selector returns the
first candidate unmodified. -/
theorem select_best_model_first_min_witness :
    select_best_model constCand [(1/2 : ℚ)] featsSmall = 1/2 :=
  (select_best_model_first_min constCand (1/2) [] featsSmall).1 (by norm_num [featsSmall])
